import Mathlib

/-!
Shallow embedding of the SimpleArkanoid entity-component framework
(`CompositionArkanoid` namespace of the C++ source) together with the
collision and physics helpers.  Coordinates and velocities are modelled
by rationals; machine floats only ever hold small dyadic values in the
scenarios considered here, and every comparison in the source is an
exact order comparison, so ℚ is a faithful carrier.
-/

namespace SimpleArkanoid

/-! ### Global constants from the source header -/

def windowWidth : ℚ := 800

def windowHeight : ℚ := 600

def ballRadius : ℚ := 10

def ballVelocity : ℚ := 1/2

def blockWidth : ℚ := 60

def blockHeight : ℚ := 20

def maxComponents : Nat := 32

def maxGroups : Nat := 32

/-! ### Geometry: vectors, physics state, bounding boxes -/

/-- Model of `sf::Vector2f`. -/
structure Vec2 where
  x : ℚ
  y : ℚ
deriving DecidableEq, Repr

/-- The data of a `CPhysics` component together with the sibling
`CPosition` it reads and writes (`cPosition->position`). -/
structure CPhysicsState where
  position : Vec2
  velocity : Vec2
  halfSize : Vec2
deriving DecidableEq, Repr

def CPhysicsState.x (p : CPhysicsState) : ℚ := p.position.x

def CPhysicsState.y (p : CPhysicsState) : ℚ := p.position.y

def CPhysicsState.left (p : CPhysicsState) : ℚ := p.x - p.halfSize.x

def CPhysicsState.right (p : CPhysicsState) : ℚ := p.x + p.halfSize.x

def CPhysicsState.top (p : CPhysicsState) : ℚ := p.y - p.halfSize.y

def CPhysicsState.bottom (p : CPhysicsState) : ℚ := p.y + p.halfSize.y

/-- An axis-aligned box given by its four side accessors; this is the
interface the `isIntersecting` template reads from either argument. -/
structure Box where
  left : ℚ
  right : ℚ
  top : ℚ
  bottom : ℚ
deriving DecidableEq, Repr

/-- The four accessor values of a physics component, as read by the
`isIntersecting` template instantiated at `CPhysics`. -/
def CPhysicsState.toBox (p : CPhysicsState) : Box :=
  { left := p.left, right := p.right, top := p.top, bottom := p.bottom }

/-- `isIntersecting(mA, mB)` from the source:
`mA.right() >= mB.left() && mA.left() <= mB.right() &&
 mA.bottom() >= mB.top() && mA.top() <= mB.bottom()`. -/
def isIntersecting (mA mB : Box) : Bool :=
  decide (mA.right ≥ mB.left) && decide (mA.left ≤ mB.right) &&
    decide (mA.bottom ≥ mB.top) && decide (mA.top ≤ mB.bottom)

/-- `testCollisionBB(mBrick, mBall)` from the source.  The brick is
represented by its physics box plus its liveness flag (mutated by
`mBrick.destroy()`); the ball by its physics state.  Returns the brick
liveness and the ball physics after the call.  The vertical branch
reproduces the source expression
`cpBall.velocity.y = ballFromTop ? -ballFromTop : ballVelocity;`
in which the bool `ballFromTop` is converted to the float `1.0f` and
negated, so the assigned value is `-1`, not `-ballVelocity`. -/
def testCollisionBB (brickAlive : Bool) (cpBrick cpBall : CPhysicsState) :
    Bool × CPhysicsState :=
  if !(isIntersecting cpBrick.toBox cpBall.toBox) then (brickAlive, cpBall)
  else
    let overlapLeft : ℚ := cpBall.right - cpBrick.left
    let overlapRight : ℚ := cpBrick.right - cpBall.left
    let overlapTop : ℚ := cpBall.bottom - cpBrick.top
    let overlapBottom : ℚ := cpBrick.bottom - cpBall.top
    let ballFromLeft : Bool := decide (|overlapLeft| < |overlapRight|)
    let ballFromTop : Bool := decide (|overlapTop| < |overlapBottom|)
    let minOverlapX : ℚ := if ballFromLeft then overlapLeft else overlapRight
    let minOverlapY : ℚ := if ballFromTop then overlapTop else overlapBottom
    let newBall : CPhysicsState :=
      if |minOverlapX| < |minOverlapY| then
        { cpBall with velocity :=
            { cpBall.velocity with
                x := if ballFromLeft then -ballVelocity else ballVelocity } }
      else
        { cpBall with velocity :=
            { cpBall.velocity with
                y := if ballFromTop then (-1 : ℚ) else ballVelocity } }
    (false, newBall)

/-- Concrete brick physics used in collision scenarios: a block of half
size `(blockWidth/2, blockHeight/2)` centred at the origin. -/
def brickEx : CPhysicsState :=
  { position := ⟨0, 0⟩, velocity := ⟨0, 0⟩, halfSize := ⟨30, 10⟩ }

/-- Concrete ball physics: radius-10 ball just penetrating the brick
from above, moving up-left at speed `ballVelocity` on each axis. -/
def ballEx : CPhysicsState :=
  { position := ⟨0, -15⟩, velocity := ⟨-1/2, -1/2⟩, halfSize := ⟨10, 10⟩ }

/-! ### CPhysics update and the ball out-of-bounds callback -/

/-- The integration step `cPosition->position += velocity * mFT`. -/
def integrate (mFT : ℚ) (p : CPhysicsState) : CPhysicsState :=
  { p with position :=
      ⟨p.position.x + p.velocity.x * mFT, p.position.y + p.velocity.y * mFT⟩ }

/-- `CPhysics::update(mFT)` from the source: integrate the position,
then, when an `onOutOfBounds` callback is installed, test the four
boundary crossings against the play area and invoke the callback with
the unit vector naming the crossed side.  The two horizontal tests are
an `if`/`else if` chain, as are the two vertical tests, and each test
reads the accessors of the state current at that point. -/
def cphysicsUpdate (onOutOfBounds : Option (Vec2 → CPhysicsState → CPhysicsState))
    (mFT : ℚ) (p : CPhysicsState) : CPhysicsState :=
  let p1 := integrate mFT p
  match onOutOfBounds with
  | none => p1
  | some cb =>
    let p2 :=
      if p1.left < 0 then cb ⟨1, 0⟩ p1
      else if p1.right > windowWidth then cb ⟨-1, 0⟩ p1
      else p1
    if p2.top < 0 then cb ⟨0, 1⟩ p2
    else if p2.bottom > windowHeight then cb ⟨0, -1⟩ p2
    else p2

/-- The `onOutOfBounds` lambda installed by `Game::createBall`:
on a horizontal report set `velocity.x = abs(velocity.x) * mSide.x`,
on a vertical report set `velocity.y = abs(velocity.y) * mSide.y`. -/
def ballCallback (mSide : Vec2) (cp : CPhysicsState) : CPhysicsState :=
  let cp1 :=
    if mSide.x ≠ 0 then
      { cp with velocity := { cp.velocity with x := |cp.velocity.x| * mSide.x } }
    else cp
  if mSide.y ≠ 0 then
    { cp1 with velocity := { cp1.velocity with y := |cp1.velocity.y| * mSide.y } }
  else cp1

/-! ### Component type registry

`getComponentTypeID<T>()` keeps a static counter `lastID` and one static
`typeID` per instantiating type, so the process state is exactly the
list of types in order of first call: a type already in the list reuses
its position, a new type is appended and receives the next counter
value, which equals the length of the list. -/

/-- Position of the first occurrence of a type key in the
registration list. -/
def idLookup {τ : Type} [DecidableEq τ] : List τ → τ → Option Nat
  | [], _ => none
  | a :: as, t => if a = t then some 0 else (idLookup as t).map (· + 1)

/-- `getComponentTypeID<T>()`: given the registration state, return the
ID for the type key together with the new state. -/
def getComponentTypeID {τ : Type} [DecidableEq τ] (reg : List τ) (t : τ) :
    Nat × List τ :=
  match idLookup reg t with
  | some i => (i, reg)
  | none => (reg.length, reg ++ [t])

/-! ### Entity component storage (`addComponent` / `getComponent`)

A component instance is modelled by its identity (`cid`, standing for
the heap address of the `new T` object), the ID of its type, and a flag
recording whether `init()` has run on it. -/

structure Comp where
  cid : Nat
  typeID : Nat
  initialized : Bool
deriving DecidableEq, Repr

/-- `Component::init()` as observable effect. -/
def initComp (c : Comp) : Comp := { c with initialized := true }

/-- The component storage of one `Entity`: the owned vector, the
slot array and the presence bitset. -/
structure CEntity where
  components : List Comp
  componentArray : Nat → Option Comp
  componentBitset : Nat → Bool

/-- `Entity::hasComponent<T>()`. -/
def hasComponent (e : CEntity) (t : Nat) : Bool := e.componentBitset t

/-- `Entity::addComponent<T>(...)`: assert no component of the type is
present (modelled as `none` on assertion failure), construct the
instance, append it to the owned vector, record the slot pointer and
presence bit, run `init()` on it, and return it.  The slot, the vector
entry and the returned reference all name the same object, so the
effect of `init()` is visible through each of them. -/
def addComponent (e : CEntity) (c : Comp) : Option (CEntity × Comp) :=
  if e.componentBitset c.typeID then none
  else
    let c1 := initComp c
    some
      ({ components := e.components ++ [c1],
         componentArray := fun j =>
           if j = c.typeID then some c1 else e.componentArray j,
         componentBitset := fun j =>
           if j = c.typeID then true else e.componentBitset j },
       c1)

/-- `Entity::getComponent<T>()`: assert presence (modelled as `none` on
assertion failure), then read the slot array. -/
def getComponent (e : CEntity) (t : Nat) : Option Comp :=
  if e.componentBitset t then e.componentArray t else none

/-- Apply a sequence of further `addComponent` calls; a call that fails
its assertion leaves the entity unchanged. -/
def applyAdds (e : CEntity) : List Comp → CEntity
  | [] => e
  | c :: cs =>
    match addComponent e c with
    | some (e1, _) => applyAdds e1 cs
    | none => applyAdds e cs

/-! ### Manager and entity lifecycle

Groups are the indices of `std::bitset<maxGroups>` and of
`std::array<std::vector<Entity*>, maxGroups>`, so they live in
`Fin maxGroups`.  An entity is modelled by its identity (`eid`,
standing for the address owned by the `unique_ptr` in Manager storage),
its liveness flag, its group bitset, and the opaque list of its owned
components; group index vectors hold entity identities, standing for
the `Entity*` pointers, which are resolved against Manager storage. -/

abbrev ArkGroup := Fin 32

structure EntityState where
  eid : Nat
  alive : Bool
  groupBitset : ArkGroup → Bool
  comps : List Nat

/-- `Entity::isAlive()`. -/
def EntityState.isAlive (e : EntityState) : Bool := e.alive

/-- `Entity::destroy()`. -/
def EntityState.destroy (e : EntityState) : EntityState := { e with alive := false }

/-- `Entity::hasGroup(mGroup)`. -/
def EntityState.hasGroup (e : EntityState) (g : ArkGroup) : Bool := e.groupBitset g

/-- Write one bit of the group bitset. -/
def EntityState.setGroupBit (e : EntityState) (g : ArkGroup) (b : Bool) : EntityState :=
  { e with groupBitset := fun j => if j = g then b else e.groupBitset j }

/-- `Entity::delGroup(mGroup)`: `groupBitset[mGroup] = false`. -/
def EntityState.delGroup (e : EntityState) (g : ArkGroup) : EntityState :=
  e.setGroupBit g false

structure ManagerState where
  entities : List EntityState
  groupedEntities : ArkGroup → List Nat

/-- Resolve an `Entity*` (entity identity) against Manager storage. -/
def deref (st : ManagerState) (id : Nat) : Option EntityState :=
  st.entities.find? (fun e => e.eid == id)

/-- The entity identities currently in Manager storage, in order. -/
def memberIds (st : ManagerState) : List Nat :=
  st.entities.map (fun e => e.eid)

/-- `Manager::update(mFT)`: erase-remove every entity that is not
alive, then call `update(mFT)` on each remaining entity.  The second
component records which entities received the `update` broadcast,
in order. -/
def ManagerState.update (st : ManagerState) : ManagerState × List Nat :=
  let remaining := st.entities.filter (fun e => e.isAlive)
  ({ st with entities := remaining }, remaining.map (fun e => e.eid))

/-- `Manager::draw()`: broadcast `draw()` to every stored entity; no
state change.  The second component records the broadcast order. -/
def ManagerState.draw (st : ManagerState) : ManagerState × List Nat :=
  (st, st.entities.map (fun e => e.eid))

/-- `Manager::addToGroup(mEntity, mGroup)`: append to the group index. -/
def ManagerState.addToGroup (st : ManagerState) (id : Nat) (g : ArkGroup) :
    ManagerState :=
  { st with groupedEntities := fun j =>
      if j = g then st.groupedEntities g ++ [id] else st.groupedEntities j }

/-- `Manager::getEntitiesByGroup(mGroup)`. -/
def ManagerState.getEntitiesByGroup (st : ManagerState) (g : ArkGroup) : List Nat :=
  st.groupedEntities g

/-- First half of `Manager::refresh()`: for every group, erase-remove
index entries whose entity is dead or no longer a member.  The
predicate dereferences the stored pointer against the storage as it is
at this point, before any purge. -/
def cleanGroups (st : ManagerState) : ManagerState :=
  { st with groupedEntities := fun g =>
      (st.groupedEntities g).filter (fun id =>
        match deref st id with
        | some e => e.isAlive && e.hasGroup g
        | none => false) }

/-- Second half of `Manager::refresh()`: erase-remove every entity
whose liveness flag is false. -/
def purgeDead (st : ManagerState) : ManagerState :=
  { st with entities := st.entities.filter (fun e => e.isAlive) }

/-- `Manager::refresh()`: group-index cleanup for all groups first,
then the purge of dead entities. -/
def ManagerState.refresh (st : ManagerState) : ManagerState :=
  purgeDead (cleanGroups st)

/-- `Manager::addEntity()`: allocate a fresh entity (alive, empty
bitsets, no components) and append it to storage.  The fresh address is
supplied as `id`. -/
def ManagerState.addEntity (st : ManagerState) (id : Nat) : ManagerState :=
  { st with entities :=
      st.entities ++ [{ eid := id, alive := true,
                        groupBitset := fun _ => false, comps := [] }] }

/-- Apply an in-place mutation to the stored entity with the given
identity (the effect of calling a mutating method through an
`Entity*` or reference). -/
def updateEntity (st : ManagerState) (id : Nat) (f : EntityState → EntityState) :
    ManagerState :=
  { st with entities := st.entities.map (fun e => if e.eid = id then f e else e) }

/-- `Entity::destroy()` observed through Manager storage. -/
def destroyEntity (st : ManagerState) (id : Nat) : ManagerState :=
  updateEntity st id EntityState.destroy

/-- `Entity::addGroup(mGroup)`: set the membership bit, then
`manager.addToGroup(this, mGroup)`. -/
def addGroupM (st : ManagerState) (id : Nat) (g : ArkGroup) : ManagerState :=
  (updateEntity st id (fun e => e.setGroupBit g true)).addToGroup id g

/-- `Entity::delGroup(mGroup)` observed through Manager storage: only
the membership bit changes. -/
def delGroupM (st : ManagerState) (id : Nat) (g : ArkGroup) : ManagerState :=
  updateEntity st id (fun e => e.delGroup g)

/-- `n` successive calls of `Entity::addGroup(g)` on the same entity. -/
def addGroupN (st : ManagerState) (id : Nat) (g : ArkGroup) : Nat → ManagerState
  | 0 => st
  | n + 1 => addGroupM (addGroupN st id g n) id g

/-- Well-formedness of Manager storage: the stored `unique_ptr`s hold
pairwise distinct addresses.  Every state built by `addEntity` with
fresh addresses satisfies it. -/
def WF (st : ManagerState) : Prop := (memberIds st).Nodup

/-- The empty Manager. -/
def emptyManager : ManagerState :=
  { entities := [], groupedEntities := fun _ => [] }

/-- An entity with no components attached, as built by
`Manager::addEntity()`. -/
def emptyCEntity : CEntity :=
  { components := [], componentArray := fun _ => none, componentBitset := fun _ => false }

/-- A concrete not-yet-initialized component instance. -/
def compEx : Comp := { cid := 7, typeID := 0, initialized := false }

/-- A concrete ball physics state moving left, about to cross the left
edge of the play area. -/
def ballPhysEx : CPhysicsState :=
  { position := ⟨5, 300⟩, velocity := ⟨-1/2, 0⟩, halfSize := ⟨10, 10⟩ }

/-- A Manager holding one entity (identity 0) that has been destroyed
and not yet purged. -/
def deadManager : ManagerState := destroyEntity (emptyManager.addEntity 0) 0

/-- The stored state of that destroyed entity. -/
def deadEnt : EntityState :=
  { eid := 0, alive := false, groupBitset := fun _ => false, comps := [] }

/-- A Manager with entity 0 alive and entity 1 destroyed, both added to
group 0. -/
def mixedManager : ManagerState :=
  destroyEntity (addGroupM (addGroupM ((emptyManager.addEntity 0).addEntity 1) 0 0) 1 0) 1

/-- A freshly allocated entity as built by `Manager::addEntity()`. -/
def emptyEnt (id : Nat) : EntityState :=
  { eid := id, alive := true, groupBitset := fun _ => false, comps := [] }

/-- A Manager whose single entity 0 called `addGroup(0)` twice. -/
def dupManager : ManagerState := addGroupN (emptyManager.addEntity 0) 0 0 2

/-- The stored state of that entity: the group bit is set twice. -/
def dupEnt : EntityState := ((emptyEnt 0).setGroupBit 0 true).setGroupBit 0 true

/-- A Manager whose single entity 0 called `addGroup(0)` once. -/
def c10Manager : ManagerState := addGroupM (emptyManager.addEntity 0) 0 0

/-- The stored state of that entity. -/
def c10Ent : EntityState := (emptyEnt 0).setGroupBit 0 true

/-! ## Theorems -/

/-- C6: for all axis-aligned boxes `a` and `b` given by their
left/right/top/bottom accessors, `isIntersecting a b` is true iff
`a.right ≥ b.left`, `a.left ≤ b.right`, `a.bottom ≥ b.top` and
`a.top ≤ b.bottom` hold simultaneously (touching edges count as
overlapping), and the test is symmetric:
`isIntersecting a b = isIntersecting b a`. -/
theorem isIntersecting_char_symm (a b : Box) :
    (isIntersecting a b = true ↔
      (a.right ≥ b.left ∧ a.left ≤ b.right ∧ a.bottom ≥ b.top ∧ a.top ≤ b.bottom)) ∧
    isIntersecting a b = isIntersecting b a := by
  constructor
  · simp [isIntersecting, and_assoc]
  · rw [Bool.eq_iff_iff]
    simp only [isIntersecting, Bool.and_eq_true, decide_eq_true_eq, ge_iff_le]
    constructor
    · rintro ⟨⟨⟨h1, h2⟩, h3⟩, h4⟩; exact ⟨⟨⟨h2, h1⟩, h4⟩, h3⟩
    · rintro ⟨⟨⟨h1, h2⟩, h3⟩, h4⟩; exact ⟨⟨⟨h2, h1⟩, h4⟩, h3⟩

/-- C4 (counterexample to the claim as stated): a ball overlapping the
brick from above while moving upward (`velocity.y = -1/2`).  The
resolution picks the vertical axis with `ballFromTop` true and assigns
`velocity.y := -1` — the negated boolean, not a sign flip: the result
is neither `-(old velocity.y)` nor of opposite sign to the old value. -/
theorem testCollisionBB_no_sign_flip :
    isIntersecting brickEx.toBox ballEx.toBox = true ∧
    ballEx.velocity.y = -(1/2) ∧
    (testCollisionBB true brickEx ballEx).2.velocity.y = -1 ∧
    (testCollisionBB true brickEx ballEx).2.velocity.y ≠ -ballEx.velocity.y ∧
    ballEx.velocity.y < 0 ∧
    (testCollisionBB true brickEx ballEx).2.velocity.y < 0 := by
  refine ⟨?_, by norm_num [ballEx], ?_, ?_, by norm_num [ballEx], ?_⟩ <;>
    · simp [testCollisionBB, isIntersecting, CPhysicsState.toBox, CPhysicsState.left,
        CPhysicsState.right, CPhysicsState.top, CPhysicsState.bottom, CPhysicsState.x,
        CPhysicsState.y, brickEx, ballEx, ballVelocity]
      norm_num

/-- C4 (amended): on overlap, `testCollisionBB` destroys the brick,
leaves the ball position and half-size unchanged, computes the four
one-dimensional penetration depths, selects the smaller-magnitude depth
on each axis with a strictly-less comparison (ties favour the
right/bottom candidate), and on the axis whose selected depth has the
strictly smaller magnitude (ties favour the vertical axis) assigns the
ball velocity component a constant: on the horizontal axis
`-ballVelocity` when the left depth was selected, else `ballVelocity`;
on the vertical axis `-1` (the negated boolean flag) when the top depth
was selected, else `ballVelocity`.  Without overlap the brick liveness
and the ball are unchanged. -/
theorem testCollisionBB_resolution (brickAlive : Bool) (cpBrick cpBall : CPhysicsState) :
    (isIntersecting cpBrick.toBox cpBall.toBox = false →
        testCollisionBB brickAlive cpBrick cpBall = (brickAlive, cpBall)) ∧
    (isIntersecting cpBrick.toBox cpBall.toBox = true →
      (testCollisionBB brickAlive cpBrick cpBall).1 = false ∧
      (testCollisionBB brickAlive cpBrick cpBall).2.position = cpBall.position ∧
      (testCollisionBB brickAlive cpBrick cpBall).2.halfSize = cpBall.halfSize ∧
      (let overlapLeft : ℚ := cpBall.right - cpBrick.left
       let overlapRight : ℚ := cpBrick.right - cpBall.left
       let overlapTop : ℚ := cpBall.bottom - cpBrick.top
       let overlapBottom : ℚ := cpBrick.bottom - cpBall.top
       let minOverlapX : ℚ :=
         if |overlapLeft| < |overlapRight| then overlapLeft else overlapRight
       let minOverlapY : ℚ :=
         if |overlapTop| < |overlapBottom| then overlapTop else overlapBottom
       (|minOverlapX| < |minOverlapY| →
          (testCollisionBB brickAlive cpBrick cpBall).2.velocity.y = cpBall.velocity.y ∧
          (testCollisionBB brickAlive cpBrick cpBall).2.velocity.x =
            (if |overlapLeft| < |overlapRight| then -ballVelocity else ballVelocity)) ∧
       (¬ |minOverlapX| < |minOverlapY| →
          (testCollisionBB brickAlive cpBrick cpBall).2.velocity.x = cpBall.velocity.x ∧
          (testCollisionBB brickAlive cpBrick cpBall).2.velocity.y =
            (if |overlapTop| < |overlapBottom| then (-1 : ℚ) else ballVelocity)))) := by
  constructor
  · intro h
    simp [testCollisionBB, h]
  · intro h
    simp only [testCollisionBB, h, Bool.not_true, Bool.false_eq_true, if_false]
    refine ⟨trivial, ?_⟩
    dsimp only
    split_ifs with h1 h2 h3 <;> simp_all

/-- C4 (witness): the amended theorem applied to the concrete
overlapping brick/ball pair; the brick ends up destroyed and the ball
velocity on the vertical axis is the degenerate constant `-1`. -/
theorem testCollisionBB_resolution_witness :
    isIntersecting brickEx.toBox ballEx.toBox = true ∧
    (testCollisionBB true brickEx ballEx).1 = false := by
  have hov : isIntersecting brickEx.toBox ballEx.toBox = true := by
    simp [isIntersecting, CPhysicsState.toBox, CPhysicsState.left,
      CPhysicsState.right, CPhysicsState.top, CPhysicsState.bottom, CPhysicsState.x,
      CPhysicsState.y, brickEx, ballEx]
    norm_num
  exact ⟨hov, ((testCollisionBB_resolution true brickEx ballEx).2 hov).1⟩

theorem idLookup_some_get {τ : Type} [DecidableEq τ] :
    ∀ (l : List τ) (t : τ) (i : Nat), idLookup l t = some i → l.get? i = some t := by
  intro l
  induction l with
  | nil => intro t i h; simp [idLookup] at h
  | cons a as ih =>
    intro t i h
    by_cases hat : a = t
    · simp [idLookup, hat] at h
      subst h
      simp [hat]
    · simp [idLookup, hat] at h
      obtain ⟨j, hj, rfl⟩ := h
      simpa using ih t j hj

theorem idLookup_append_self {τ : Type} [DecidableEq τ] :
    ∀ (l : List τ) (t : τ), idLookup l t = none → idLookup (l ++ [t]) t = some l.length := by
  intro l
  induction l with
  | nil => intro t _; simp [idLookup]
  | cons a as ih =>
    intro t h
    by_cases hat : a = t
    · simp [idLookup, hat] at h
    · simp [idLookup, hat] at h ⊢
      exact ih t h

theorem idLookup_none_not_mem {τ : Type} [DecidableEq τ] :
    ∀ (l : List τ) (t : τ), idLookup l t = none → t ∉ l := by
  intro l
  induction l with
  | nil => intro t _; simp
  | cons a as ih =>
    intro t h
    by_cases hat : a = t
    · simp [idLookup, hat] at h
    · simp [idLookup, hat] at h
      simp [hat]
      exact ⟨fun he => hat he.symm, ih t h⟩

theorem idLookup_some_lt {τ : Type} [DecidableEq τ] (l : List τ) (t : τ) (i : Nat)
    (h : idLookup l t = some i) : i < l.length := by
  have := idLookup_some_get l t i h
  exact (List.get?_eq_some.mp this).1


theorem getComponentTypeID_found {τ : Type} [DecidableEq τ] (reg : List τ) (t : τ)
    (i : Nat) (h : idLookup reg t = some i) : getComponentTypeID reg t = (i, reg) := by
  simp [getComponentTypeID, h]

theorem getComponentTypeID_fresh {τ : Type} [DecidableEq τ] (reg : List τ) (t : τ)
    (h : idLookup reg t = none) : getComponentTypeID reg t = (reg.length, reg ++ [t]) := by
  simp [getComponentTypeID, h]

/-- C8: `getComponentTypeID` returns the same ID on every later call
for a type (first call assigns a fresh ID, all later calls reuse it),
distinct types receive distinct IDs, and IDs are assigned
monotonically: a fresh ID equals the number of types registered so
far, and every returned ID is below the number of distinct types
queried so far (the length of the registration state). -/
theorem getComponentTypeID_spec {τ : Type} [DecidableEq τ] (reg : List τ) (t s : τ) :
    (getComponentTypeID ((getComponentTypeID reg t).2) t =
      ((getComponentTypeID reg t).1, (getComponentTypeID reg t).2)) ∧
    ((getComponentTypeID reg t).1 < ((getComponentTypeID reg t).2).length) ∧
    (idLookup reg t = none →
      (getComponentTypeID reg t).1 = reg.length ∧
      (getComponentTypeID reg t).2 = reg ++ [t]) ∧
    (t ≠ s →
      (getComponentTypeID ((getComponentTypeID reg t).2) s).1 ≠
        (getComponentTypeID reg t).1) ∧
    (reg.Nodup →
      ((getComponentTypeID reg t).2).Nodup ∧
      ∀ u, u ∈ (getComponentTypeID reg t).2 ↔ (u ∈ reg ∨ u = t)) := by
  have key : idLookup ((getComponentTypeID reg t).2) t =
      some ((getComponentTypeID reg t).1) := by
    cases h : idLookup reg t with
    | some i => rw [getComponentTypeID_found reg t i h]; exact h
    | none =>
      rw [getComponentTypeID_fresh reg t h]
      exact idLookup_append_self reg t h
  have tmem : ((getComponentTypeID reg t).2).get? ((getComponentTypeID reg t).1) =
      some t := idLookup_some_get _ t _ key
  have bound : (getComponentTypeID reg t).1 < ((getComponentTypeID reg t).2).length :=
    idLookup_some_lt _ t _ key
  refine ⟨?_, bound, ?_, ?_, ?_⟩
  · rw [getComponentTypeID_found _ t _ key]
  · intro h
    rw [getComponentTypeID_fresh reg t h]
    exact ⟨rfl, rfl⟩
  · intro hts
    cases h2 : idLookup ((getComponentTypeID reg t).2) s with
    | some j =>
      rw [getComponentTypeID_found _ s j h2]
      intro hji
      have hgs := idLookup_some_get _ s j h2
      rw [show j = (getComponentTypeID reg t).1 from hji] at hgs
      rw [tmem] at hgs
      exact hts (Option.some.inj hgs)
    | none =>
      rw [getComponentTypeID_fresh _ s h2]
      intro hcon
      dsimp only at hcon
      omega
  · intro hnd
    cases h : idLookup reg t with
    | some i =>
      rw [getComponentTypeID_found reg t i h]
      have htm : t ∈ reg := List.get?_mem (idLookup_some_get reg t i h)
      exact ⟨hnd, fun u => ⟨fun hu => Or.inl hu, fun hu => hu.elim id (fun he => he ▸ htm)⟩⟩
    | none =>
      rw [getComponentTypeID_fresh reg t h]
      have htn : t ∉ reg := idLookup_none_not_mem reg t h
      constructor
      · simp [List.nodup_append, hnd, htn]
      · intro u
        simp [List.mem_append, or_comm]

/-- C8 (witness): the theorem applied with the empty registration
state and the distinct type keys `0` and `1`: the two calls return
distinct IDs, each below the number of distinct types queried. -/
theorem getComponentTypeID_spec_witness :
    ((0 : Nat) ≠ 1) ∧
    (idLookup ([] : List Nat) 0 = none) ∧
    ((getComponentTypeID ([] : List Nat) 0).1 = 0) ∧
    ((getComponentTypeID ((getComponentTypeID ([] : List Nat) 0).2) 1).1 ≠
      (getComponentTypeID ([] : List Nat) 0).1) ∧
    (∀ u, u ∈ (getComponentTypeID ([] : List Nat) 0).2 ↔
      (u ∈ ([] : List Nat) ∨ u = 0)) := by
  refine ⟨by decide, by decide, ?_, ?_, ?_⟩
  · exact ((getComponentTypeID_spec ([] : List Nat) 0 1).2.2.1 (by decide)).1
  · exact (getComponentTypeID_spec ([] : List Nat) 0 1).2.2.2.1 (by decide)
  · exact ((getComponentTypeID_spec ([] : List Nat) 0 1).2.2.2.2 (by decide)).2

/-- `getComponent` at a type is untouched by later `addComponent` calls
of other types. -/
theorem getComponent_applyAdds (t : Nat) :
    ∀ (cs : List Comp) (e : CEntity), (∀ d ∈ cs, d.typeID ≠ t) →
      getComponent (applyAdds e cs) t = getComponent e t := by
  intro cs
  induction cs with
  | nil => intro e _; rfl
  | cons c cs ih =>
    intro e hall
    have hct : c.typeID ≠ t := hall c (by simp)
    have htail : ∀ d ∈ cs, d.typeID ≠ t := fun d hd => hall d (by simp [hd])
    have htc : ¬ (t = c.typeID) := fun hh => hct hh.symm
    cases hb : e.componentBitset c.typeID with
    | true =>
      simp only [applyAdds, addComponent, hb, if_true]
      exact ih e htail
    | false =>
      simp only [applyAdds, addComponent, hb, Bool.false_eq_true, if_false]
      rw [ih _ htail]
      simp [getComponent, htc]

/-- C5: for every component type and every entity with no component of
that type attached, `addComponent` succeeds (its assertion passes),
records the presence bit and the slot pointer, appends the owned
instance, and invokes `init()` on it before returning it; afterwards
`hasComponent` is true and `getComponent` returns the identical
instance, also after any sequence of further `addComponent` calls of
other types; attaching a second component of the same type fails the
assertion. -/
theorem addComponent_spec (e : CEntity) (c : Comp)
    (h : hasComponent e c.typeID = false) :
    ∃ e1 c1, addComponent e c = some (e1, c1) ∧
      c1 = initComp c ∧
      c1.initialized = true ∧
      c1.cid = c.cid ∧
      hasComponent e1 c.typeID = true ∧
      getComponent e1 c.typeID = some c1 ∧
      e1.components = e.components ++ [c1] ∧
      (∀ c2 : Comp, c2.typeID = c.typeID → addComponent e1 c2 = none) ∧
      (∀ cs : List Comp, (∀ d ∈ cs, d.typeID ≠ c.typeID) →
        getComponent (applyAdds e1 cs) c.typeID = some c1) := by
  have hb : e.componentBitset c.typeID = false := h
  refine ⟨{ components := e.components ++ [initComp c],
            componentArray := fun j =>
              if j = c.typeID then some (initComp c) else e.componentArray j,
            componentBitset := fun j =>
              if j = c.typeID then true else e.componentBitset j },
          initComp c, ?_, rfl, rfl, rfl, ?_, ?_, rfl, ?_, ?_⟩
  · simp only [addComponent, hb, Bool.false_eq_true, if_false]
  · simp [hasComponent]
  · simp [getComponent]
  · intro c2 hc2
    simp [addComponent, hc2]
  · intro cs hall
    rw [getComponent_applyAdds c.typeID cs _ hall]
    simp [getComponent]

/-- C5 (witness): attaching a concrete component to the empty entity:
the assertion passes, the stored instance is initialized, present and
returned by `getComponent`. -/
theorem addComponent_spec_witness :
    hasComponent emptyCEntity compEx.typeID = false ∧
    ∃ e1 c1, addComponent emptyCEntity compEx = some (e1, c1) ∧
      c1.initialized = true ∧
      hasComponent e1 compEx.typeID = true ∧
      getComponent e1 compEx.typeID = some c1 := by
  have h : hasComponent emptyCEntity compEx.typeID = false := rfl
  obtain ⟨e1, c1, ha, _, hinit, _, hhas, hget, _⟩ := addComponent_spec emptyCEntity compEx h
  exact ⟨h, e1, c1, ha, hinit, hhas, hget⟩

theorem ballCallback_position (s : Vec2) (q : CPhysicsState) :
    (ballCallback s q).position = q.position ∧
    (ballCallback s q).halfSize = q.halfSize := by
  simp only [ballCallback]
  split_ifs <;> simp

theorem ballCallback_horizontal (q : CPhysicsState) :
    (ballCallback ⟨1, 0⟩ q).velocity.x = |q.velocity.x| ∧
    (ballCallback ⟨1, 0⟩ q).velocity.y = q.velocity.y := by
  norm_num [ballCallback]

theorem ballCallback_vertical_vx (sy : ℚ) (q : CPhysicsState) :
    (ballCallback ⟨0, sy⟩ q).velocity.x = q.velocity.x := by
  by_cases h : sy = 0 <;> simp [ballCallback, h]

/-- C7: `CPhysics::update(mFT)` first integrates the sibling position
by `velocity * mFT` (the installed callbacks never move the position);
for every position-preserving callback, each boundary crossing detected
on the integrated box invokes the callback with the unit vector naming
the crossed side — `(1,0)` for the left side, `(-1,0)` for the right,
`(0,1)` for the top, `(0,-1)` for the bottom, with at most one
horizontal and one vertical report per tick (horizontal first, via the
two `else if` chains) and no invocation when no boundary is crossed;
with the ball callback installed, a body moving left whose integrated
box crosses `x = 0` has its horizontal velocity flipped to positive
with magnitude preserved on that tick, and the horizontal velocity is
not changed again while no horizontal boundary is crossed, nor by a
repeated left-side report once it is already nonnegative. -/
theorem cphysics_ball_reflection (p : CPhysicsState) (mFT : ℚ) :
    ((cphysicsUpdate (some ballCallback) mFT p).position =
        (integrate mFT p).position) ∧
    (∀ cb : Vec2 → CPhysicsState → CPhysicsState,
      (∀ s q, (cb s q).position = q.position) →
      (∀ s q, (cb s q).halfSize = q.halfSize) →
      (((integrate mFT p).left < 0 → 0 ≤ (integrate mFT p).top →
          (integrate mFT p).bottom ≤ windowHeight →
          cphysicsUpdate (some cb) mFT p = cb ⟨1, 0⟩ (integrate mFT p)) ∧
       (0 ≤ (integrate mFT p).left → (integrate mFT p).right > windowWidth →
          0 ≤ (integrate mFT p).top → (integrate mFT p).bottom ≤ windowHeight →
          cphysicsUpdate (some cb) mFT p = cb ⟨-1, 0⟩ (integrate mFT p)) ∧
       (0 ≤ (integrate mFT p).left → (integrate mFT p).right ≤ windowWidth →
          (integrate mFT p).top < 0 →
          cphysicsUpdate (some cb) mFT p = cb ⟨0, 1⟩ (integrate mFT p)) ∧
       (0 ≤ (integrate mFT p).left → (integrate mFT p).right ≤ windowWidth →
          0 ≤ (integrate mFT p).top → (integrate mFT p).bottom > windowHeight →
          cphysicsUpdate (some cb) mFT p = cb ⟨0, -1⟩ (integrate mFT p)) ∧
       ((integrate mFT p).left < 0 → (integrate mFT p).top < 0 →
          cphysicsUpdate (some cb) mFT p =
            cb ⟨0, 1⟩ (cb ⟨1, 0⟩ (integrate mFT p))) ∧
       ((integrate mFT p).left < 0 → 0 ≤ (integrate mFT p).top →
          (integrate mFT p).bottom > windowHeight →
          cphysicsUpdate (some cb) mFT p =
            cb ⟨0, -1⟩ (cb ⟨1, 0⟩ (integrate mFT p))) ∧
       (0 ≤ (integrate mFT p).left → (integrate mFT p).right > windowWidth →
          (integrate mFT p).top < 0 →
          cphysicsUpdate (some cb) mFT p =
            cb ⟨0, 1⟩ (cb ⟨-1, 0⟩ (integrate mFT p))) ∧
       (0 ≤ (integrate mFT p).left → (integrate mFT p).right > windowWidth →
          0 ≤ (integrate mFT p).top → (integrate mFT p).bottom > windowHeight →
          cphysicsUpdate (some cb) mFT p =
            cb ⟨0, -1⟩ (cb ⟨-1, 0⟩ (integrate mFT p))) ∧
       (0 ≤ (integrate mFT p).left → (integrate mFT p).right ≤ windowWidth →
          0 ≤ (integrate mFT p).top → (integrate mFT p).bottom ≤ windowHeight →
          cphysicsUpdate (some cb) mFT p = integrate mFT p))) ∧
    (p.velocity.x < 0 → (integrate mFT p).left < 0 →
      (cphysicsUpdate (some ballCallback) mFT p).velocity.x = -p.velocity.x ∧
      0 < (cphysicsUpdate (some ballCallback) mFT p).velocity.x) ∧
    (0 ≤ (integrate mFT p).left → (integrate mFT p).right ≤ windowWidth →
      (cphysicsUpdate (some ballCallback) mFT p).velocity.x = p.velocity.x) ∧
    (0 ≤ p.velocity.x → (integrate mFT p).left < 0 →
      (cphysicsUpdate (some ballCallback) mFT p).velocity.x = p.velocity.x) := by
  have hvel : (integrate mFT p).velocity = p.velocity := rfl
  refine ⟨?_, ?_, ?_, ?_, ?_⟩
  · show (cphysicsUpdate (some ballCallback) mFT p).position = _
    simp only [cphysicsUpdate]
    split_ifs <;>
      simp [(ballCallback_position _ _).1]
  · intro cb hpos hhalf
    have htop : ∀ s q, (cb s q).top = q.top := by
      intro s q
      simp [CPhysicsState.top, CPhysicsState.y, hpos, hhalf]
    have hbot : ∀ s q, (cb s q).bottom = q.bottom := by
      intro s q
      simp [CPhysicsState.bottom, CPhysicsState.y, hpos, hhalf]
    refine ⟨?_, ?_, ?_, ?_, ?_, ?_, ?_, ?_, ?_⟩
    · intro h1 h2 h3
      simp only [cphysicsUpdate]
      rw [if_pos h1, if_neg (by rw [htop]; exact not_lt.mpr h2),
          if_neg (by rw [hbot]; exact not_lt.mpr h3)]
    · intro h1 h2 h3 h4
      simp only [cphysicsUpdate]
      rw [if_neg (not_lt.mpr h1), if_pos h2,
          if_neg (by rw [htop]; exact not_lt.mpr h3),
          if_neg (by rw [hbot]; exact not_lt.mpr h4)]
    · intro h1 h2 h3
      simp only [cphysicsUpdate]
      rw [if_neg (not_lt.mpr h1), if_neg (not_lt.mpr h2), if_pos h3]
    · intro h1 h2 h3 h4
      simp only [cphysicsUpdate]
      rw [if_neg (not_lt.mpr h1), if_neg (not_lt.mpr h2),
          if_neg (not_lt.mpr h3), if_pos h4]
    · intro h1 h2
      simp only [cphysicsUpdate]
      rw [if_pos h1, if_pos (by rw [htop]; exact h2)]
    · intro h1 h2 h3
      simp only [cphysicsUpdate]
      rw [if_pos h1, if_neg (by rw [htop]; exact not_lt.mpr h2),
          if_pos (by rw [hbot]; exact h3)]
    · intro h1 h2 h3
      simp only [cphysicsUpdate]
      rw [if_neg (not_lt.mpr h1), if_pos h2, if_pos (by rw [htop]; exact h3)]
    · intro h1 h2 h3 h4
      simp only [cphysicsUpdate]
      rw [if_neg (not_lt.mpr h1), if_pos h2,
          if_neg (by rw [htop]; exact not_lt.mpr h3),
          if_pos (by rw [hbot]; exact h4)]
    · intro h1 h2 h3 h4
      simp only [cphysicsUpdate]
      rw [if_neg (not_lt.mpr h1), if_neg (not_lt.mpr h2),
          if_neg (not_lt.mpr h3), if_neg (not_lt.mpr h4)]
  · intro hvx hl
    simp only [cphysicsUpdate]
    rw [if_pos hl]
    have habs : (ballCallback ⟨1, 0⟩ (integrate mFT p)).velocity.x = -p.velocity.x := by
      rw [(ballCallback_horizontal _).1, hvel, abs_of_neg hvx]
    constructor <;> split_ifs <;>
      simp [ballCallback_vertical_vx, habs, hvx, neg_pos]
  · intro hge hle
    simp only [cphysicsUpdate]
    rw [if_neg (not_lt.mpr hge), if_neg (not_lt.mpr hle)]
    split_ifs <;> simp [ballCallback_vertical_vx, hvel]
  · intro hvx hl
    simp only [cphysicsUpdate]
    rw [if_pos hl]
    have habs : (ballCallback ⟨1, 0⟩ (integrate mFT p)).velocity.x = p.velocity.x := by
      rw [(ballCallback_horizontal _).1, hvel, abs_of_nonneg hvx]
    split_ifs <;> simp [ballCallback_vertical_vx, habs]

/-- C7 (witness): a concrete ball moving left at `-1/2` crosses `x = 0`
after one tick and no other boundary; the update equals one callback
invocation with the unit vector `(1, 0)`, and the ball leaves with
horizontal velocity `+1/2`. -/
theorem cphysics_ball_reflection_witness :
    ballPhysEx.velocity.x < 0 ∧
    (integrate 1 ballPhysEx).left < 0 ∧
    0 ≤ (integrate 1 ballPhysEx).top ∧
    (integrate 1 ballPhysEx).bottom ≤ windowHeight ∧
    cphysicsUpdate (some ballCallback) 1 ballPhysEx =
      ballCallback ⟨1, 0⟩ (integrate 1 ballPhysEx) ∧
    (cphysicsUpdate (some ballCallback) 1 ballPhysEx).velocity.x =
      -ballPhysEx.velocity.x ∧
    0 < (cphysicsUpdate (some ballCallback) 1 ballPhysEx).velocity.x := by
  have h1 : ballPhysEx.velocity.x < 0 := by norm_num [ballPhysEx]
  have h2 : (integrate 1 ballPhysEx).left < 0 := by
    norm_num [integrate, ballPhysEx, CPhysicsState.left, CPhysicsState.x]
  have h3 : 0 ≤ (integrate 1 ballPhysEx).top := by
    norm_num [integrate, ballPhysEx, CPhysicsState.top, CPhysicsState.y]
  have h4 : (integrate 1 ballPhysEx).bottom ≤ windowHeight := by
    norm_num [integrate, ballPhysEx, CPhysicsState.bottom, CPhysicsState.y,
      windowHeight]
  have hcb := ((cphysics_ball_reflection ballPhysEx 1).2.1 ballCallback
      (fun s q => (ballCallback_position s q).1)
      (fun s q => (ballCallback_position s q).2)).1 h2 h3 h4
  obtain ⟨hx, hpos2⟩ := (cphysics_ball_reflection ballPhysEx 1).2.2.1 h1 h2
  exact ⟨h1, h2, h3, h4, hcb, hx, hpos2⟩

/-- `find?` by identity commutes with an in-place update that preserves
identities. -/
theorem find?_map_update (id : Nat) (f : EntityState → EntityState)
    (hf : ∀ x, (f x).eid = x.eid) :
    ∀ (l : List EntityState) (e : EntityState),
      l.find? (fun x => x.eid == id) = some e →
      (l.map (fun x => if x.eid = id then f x else x)).find? (fun x => x.eid == id) =
        some (f e) := by
  intro l
  induction l with
  | nil => intro e h; simp at h
  | cons a as ih =>
    intro e h
    by_cases ha : a.eid = id
    · rw [List.find?_cons_of_pos _ (by simp [ha])] at h
      cases h
      simp only [List.map_cons, ha, if_true]
      rw [List.find?_cons_of_pos _ (by simp [hf, ha])]
    · rw [List.find?_cons_of_neg _ (by simp [ha])] at h
      simp only [List.map_cons, ha, if_false]
      rw [List.find?_cons_of_neg _ (by simp [ha])]
      exact ih e h

/-- An identity-preserving in-place update leaves the identity list
unchanged. -/
theorem eids_map_update (id : Nat) (f : EntityState → EntityState)
    (hf : ∀ x, (f x).eid = x.eid) (l : List EntityState) :
    (l.map (fun x => if x.eid = id then f x else x)).map (fun x => x.eid) =
      l.map (fun x => x.eid) := by
  rw [List.map_map]
  apply List.map_congr_left
  intro a _
  by_cases ha : a.eid = id <;> simp [ha, hf]

/-- `updateEntity` never changes which entities Manager storage holds. -/
theorem memberIds_updateEntity (st : ManagerState) (id : Nat)
    (f : EntityState → EntityState) (hf : ∀ x, (f x).eid = x.eid) :
    memberIds (updateEntity st id f) = memberIds st :=
  eids_map_update id f hf st.entities

/-- An alive entity found by identity is still found after the purge
filter. -/
theorem find?_filter_alive_some (id : Nat) :
    ∀ (l : List EntityState) (e : EntityState),
      l.find? (fun x => x.eid == id) = some e → e.isAlive = true →
      (l.filter (fun x => x.isAlive)).find? (fun x => x.eid == id) = some e := by
  intro l
  induction l with
  | nil => intro e h; simp at h
  | cons a as ih =>
    intro e h ha
    by_cases hid : a.eid = id
    · rw [List.find?_cons_of_pos _ (by simp [hid])] at h
      cases h
      rw [List.filter_cons_of_pos (by simp [ha])]
      rw [List.find?_cons_of_pos _ (by simp [hid])]
    · rw [List.find?_cons_of_neg _ (by simp [hid])] at h
      by_cases hal : a.isAlive
      · rw [List.filter_cons_of_pos (by simp [hal])]
        rw [List.find?_cons_of_neg _ (by simp [hid])]
        exact ih e h ha
      · rw [List.filter_cons_of_neg (by simp [hal])]
        exact ih e h ha

/-- Under distinct identities, a dead entity found by identity is gone
after the purge filter. -/
theorem find?_filter_alive_none (id : Nat) (l : List EntityState) (e : EntityState)
    (hnd : (l.map (fun x => x.eid)).Nodup)
    (h : l.find? (fun x => x.eid == id) = some e) (hdead : e.isAlive = false) :
    (l.filter (fun x => x.isAlive)).find? (fun x => x.eid == id) = none := by
  rw [List.find?_eq_none]
  intro x hx
  simp only [beq_iff_eq]
  intro hxid
  have hxl : x ∈ l := (List.mem_filter.mp hx).1
  have hxa : x.isAlive = true := by
    have := (List.mem_filter.mp hx).2
    simpa using this
  have hel : e ∈ l := List.mem_of_find?_eq_some h
  have heid : e.eid = id := by
    have := List.find?_some h
    simpa using this
  have hxe : x = e :=
    List.inj_on_of_nodup_map hnd hxl hel (by rw [hxid, heid])
  rw [hxe] at hxa
  rw [hdead] at hxa
  exact Bool.false_ne_true hxa

/-- C1 (counterexample to the claim as stated): a Manager holding one
destroyed entity.  `Manager::update` — an operation other than
`refresh` — removes the entity from storage: the claim that removal
happens strictly after the next `refresh()` and never by any other
operation is false on the code. -/
theorem destroy_purged_by_update_cex :
    memberIds deadManager = [0] ∧
    (∀ e ∈ deadManager.entities, e.isAlive = false) ∧
    (deadManager.update).1.entities = [] ∧
    memberIds (deadManager.update).1 = [] := by
  refine ⟨rfl, ?_, rfl, rfl⟩
  intro e he
  have hl : deadManager.entities = [deadEnt] := rfl
  rw [hl] at he
  simp at he
  rw [he]
  rfl

/-- C1 (amended): after `destroy()`, `isAlive()` is false immediately
and `destroy()` is idempotent; `destroy`, `draw`, `delGroup`,
`addGroup` and `addEntity` never remove an entity from Manager storage
(`addEntity` only appends); the destroyed entity is physically removed
by the next `Manager::refresh()` or `Manager::update()` call, both of
which purge dead entities. -/
theorem destroy_lifecycle (st : ManagerState) (e : EntityState) (id id2 : Nat)
    (g : ArkGroup) :
    ((EntityState.destroy e).isAlive = false) ∧
    ((EntityState.destroy e).destroy = EntityState.destroy e) ∧
    (memberIds (destroyEntity st id) = memberIds st) ∧
    ((st.draw).1 = st) ∧
    (memberIds (delGroupM st id g) = memberIds st) ∧
    (memberIds (addGroupM st id g) = memberIds st) ∧
    (memberIds (st.addEntity id2) = memberIds st ++ [id2]) ∧
    (WF st → deref st id = some e → e.isAlive = false →
      deref st.refresh id = none ∧ deref (st.update).1 id = none) := by
  refine ⟨rfl, rfl, ?_, rfl, ?_, ?_, ?_, ?_⟩
  · exact memberIds_updateEntity st id EntityState.destroy (fun x => rfl)
  · exact memberIds_updateEntity st id (fun x => x.delGroup g) (fun x => rfl)
  · have h : memberIds (addGroupM st id g) =
        memberIds (updateEntity st id (fun x => x.setGroupBit g true)) := rfl
    rw [h]
    exact memberIds_updateEntity st id (fun x => x.setGroupBit g true) (fun x => rfl)
  · simp [memberIds, ManagerState.addEntity]
  · intro hWF hd hdead
    exact ⟨find?_filter_alive_none id st.entities e hWF hd hdead,
           find?_filter_alive_none id st.entities e hWF hd hdead⟩

/-- C1 (witness): the amended theorem applied to the concrete Manager
holding one destroyed entity: both `refresh` and `update` remove it. -/
theorem destroy_lifecycle_witness :
    WF deadManager ∧
    deref deadManager 0 = some deadEnt ∧
    deadEnt.isAlive = false ∧
    deref (deadManager.refresh) 0 = none ∧
    deref (deadManager.update).1 0 = none := by
  have hWF : WF deadManager := by
    show List.Nodup (memberIds deadManager)
    have h : memberIds deadManager = [0] := rfl
    rw [h]
    decide
  have hd : deref deadManager 0 = some deadEnt := rfl
  obtain ⟨h1, h2⟩ :=
    (destroy_lifecycle deadManager deadEnt 0 1 0).2.2.2.2.2.2.2 hWF hd rfl
  exact ⟨hWF, hd, rfl, h1, h2⟩

/-- C2 (amended): `Manager::update(dt)` first purges every dead entity
and then broadcasts `update(dt)` to exactly the remaining entities, in
storage order: every alive entity receives the broadcast, and an
entity whose liveness flag is already false receives none. -/
theorem manager_update_broadcast (st : ManagerState) :
    ((st.update).1.entities = st.entities.filter (fun e => e.isAlive)) ∧
    ((st.update).2 = (st.entities.filter (fun e => e.isAlive)).map (fun e => e.eid)) ∧
    (∀ e ∈ st.entities, e.isAlive = true → e.eid ∈ (st.update).2) ∧
    (WF st → ∀ e ∈ st.entities, e.isAlive = false → e.eid ∉ (st.update).2) := by
  refine ⟨rfl, rfl, ?_, ?_⟩
  · intro e he ha
    exact List.mem_map_of_mem _ (List.mem_filter.mpr ⟨he, by simp [ha]⟩)
  · intro hWF e he hdead hmem
    obtain ⟨e2, he2, heq⟩ := List.mem_map.mp hmem
    have he2l : e2 ∈ st.entities := (List.mem_filter.mp he2).1
    have he2a : e2.isAlive = true := by
      have := (List.mem_filter.mp he2).2
      simpa using this
    have : e2 = e := List.inj_on_of_nodup_map hWF he2l he heq
    rw [this, hdead] at he2a
    exact Bool.false_ne_true he2a

/-- C2 (counterexample to the claim as stated): the Manager holding one
dead, not-yet-purged entity: the entity is in storage, yet the update
broadcast reaches no entity at all. -/
theorem manager_update_dead_cex :
    memberIds deadManager = [0] ∧ (deadManager.update).2 = [] := ⟨rfl, rfl⟩

/-- C2 (witness): on the concrete one-dead-entity Manager the stored
dead entity receives no `update` broadcast. -/
theorem manager_update_broadcast_witness :
    WF deadManager ∧ deadEnt ∈ deadManager.entities ∧ deadEnt.isAlive = false ∧
    deadEnt.eid ∉ (deadManager.update).2 := by
  have hWF : WF deadManager := by
    show List.Nodup (memberIds deadManager)
    have h : memberIds deadManager = [0] := rfl
    rw [h]
    decide
  have hm : deadEnt ∈ deadManager.entities := by
    show deadEnt ∈ [deadEnt]
    simp
  exact ⟨hWF, hm, rfl, (manager_update_broadcast deadManager).2.2.2 hWF deadEnt hm rfl⟩

/-- C3: `refresh()` runs the group-index cleanup over all groups first
and purges dead entities from storage second; immediately after
`refresh()`, every entity listed in `getEntitiesByGroup g` resolves in
the refreshed storage to an entity that is alive and has `hasGroup g`
true. -/
theorem refresh_group_invariant (st : ManagerState) (g : ArkGroup) (id : Nat) :
    (st.refresh = purgeDead (cleanGroups st)) ∧
    (id ∈ (st.refresh).getEntitiesByGroup g →
      ∃ e, deref (st.refresh) id = some e ∧ e.isAlive = true ∧ e.hasGroup g = true) := by
  refine ⟨rfl, ?_⟩
  intro hmem
  have hmem2 : id ∈ (st.groupedEntities g).filter (fun i =>
      match deref st i with
      | some e => e.isAlive && e.hasGroup g
      | none => false) := hmem
  have hpred := (List.mem_filter.mp hmem2).2
  cases hd : deref st id with
  | none =>
    rw [hd] at hpred
    simp at hpred
  | some e =>
    rw [hd] at hpred
    simp at hpred
    obtain ⟨ha, hg⟩ := hpred
    exact ⟨e, find?_filter_alive_some id st.entities e hd ha, ha, hg⟩

/-- C3 (witness): on the concrete Manager with one alive and one dead
group member, after `refresh` the group index holds exactly the alive
member, which is alive and still a member. -/
theorem refresh_group_invariant_witness :
    WF mixedManager ∧
    0 ∈ (mixedManager.refresh).getEntitiesByGroup 0 ∧
    (∃ e, deref (mixedManager.refresh) 0 = some e ∧ e.isAlive = true ∧
      e.hasGroup (0 : ArkGroup) = true) ∧
    (mixedManager.refresh).getEntitiesByGroup 0 = [0] := by
  have hWF : WF mixedManager := by
    show List.Nodup (memberIds mixedManager)
    have h : memberIds mixedManager = [0, 1] := rfl
    rw [h]
    decide
  have hlist : (mixedManager.refresh).getEntitiesByGroup 0 = [0] := rfl
  have hmem : 0 ∈ (mixedManager.refresh).getEntitiesByGroup 0 := by
    rw [hlist]
    simp
  exact ⟨hWF, hmem, (refresh_group_invariant mixedManager 0 0).2 hmem, hlist⟩

/-- `addGroup` appends the entity to the group index unconditionally. -/
theorem getEntitiesByGroup_addGroupM (st : ManagerState) (id : Nat) (g : ArkGroup) :
    (addGroupM st id g).getEntitiesByGroup g = st.getEntitiesByGroup g ++ [id] := by
  simp [addGroupM, ManagerState.addToGroup, ManagerState.getEntitiesByGroup, updateEntity]

/-- `filter` preserves the count of an element the predicate accepts. -/
theorem count_filter_of_pos {p : Nat → Bool} {a : Nat} (h : p a = true) :
    ∀ l : List Nat, (l.filter p).count a = l.count a := by
  intro l
  induction l with
  | nil => rfl
  | cons b l ih =>
    by_cases hb : p b = true
    · rw [List.filter_cons_of_pos hb, List.count_cons, List.count_cons, ih]
    · rw [List.filter_cons_of_neg (by simp [hb]), List.count_cons, ih]
      have hba : ¬(b == a) = true := by
        simp only [beq_iff_eq]
        intro hba
        rw [hba] at hb
        exact hb h
      simp [hba]

/-- C9: `n` calls of `Entity::addGroup(g)` on the same entity append it
to the group-`g` index `n` times, without any duplicate check; and
`refresh()` keeps every copy of an index entry whose entity is alive
and still a member of `g`. -/
theorem addGroup_duplicates (st : ManagerState) (id : Nat) (g : ArkGroup) (n : Nat)
    (e : EntityState) :
    (((addGroupN st id g n).getEntitiesByGroup g).count id =
      (st.getEntitiesByGroup g).count id + n) ∧
    (deref st id = some e → e.isAlive = true → e.hasGroup g = true →
      ((st.refresh).getEntitiesByGroup g).count id =
        (st.getEntitiesByGroup g).count id) := by
  constructor
  · induction n with
    | zero => rfl
    | succ n ih =>
      show ((addGroupM (addGroupN st id g n) id g).getEntitiesByGroup g).count id = _
      rw [getEntitiesByGroup_addGroupM, List.count_append, ih]
      simp [Nat.add_assoc]
  · intro hd ha hg
    show (((st.groupedEntities g).filter (fun i =>
        match deref st i with
        | some e => e.isAlive && e.hasGroup g
        | none => false)).count id) = _
    apply count_filter_of_pos
    rw [hd]
    simp [ha, hg]

/-- C9 (witness): after two `addGroup(0)` calls on one entity the
group-0 index holds it twice, and still twice after `refresh`. -/
theorem addGroup_duplicates_witness :
    ((dupManager.getEntitiesByGroup 0).count 0 = 2) ∧
    deref dupManager 0 = some dupEnt ∧
    dupEnt.isAlive = true ∧
    dupEnt.hasGroup 0 = true ∧
    ((dupManager.refresh).getEntitiesByGroup 0).count 0 = 2 := by
  have h0 : ((emptyManager.addEntity 0).getEntitiesByGroup 0).count 0 = 0 := rfl
  have h1 : (dupManager.getEntitiesByGroup 0).count 0 = 2 := by
    have h := (addGroup_duplicates (emptyManager.addEntity 0) 0 0 2 dupEnt).1
    rw [h0] at h
    exact h
  have hd : deref dupManager 0 = some dupEnt := rfl
  have hg : dupEnt.hasGroup 0 = true := by
    simp [dupEnt, EntityState.hasGroup, EntityState.setGroupBit, emptyEnt]
  have h2 := (addGroup_duplicates dupManager 0 0 0 dupEnt).2 hd rfl hg
  exact ⟨h1, hd, rfl, hg, by rw [h2, h1]⟩

/-- C10: for an entity with `hasGroup g` true, `delGroup(g)` clears only
that membership bit: `hasGroup g` becomes false immediately, liveness,
the owned components and the other membership bits are unchanged, no
group index changes (the entity remains listed in group `g`), storage
is unchanged, and the next `refresh()` drops the stale group-`g`
index entries of this entity. -/
theorem delGroup_frame (st : ManagerState) (id : Nat) (g g2 : ArkGroup)
    (e : EntityState) (hd : deref st id = some e) (_hg : e.hasGroup g = true) :
    (deref (delGroupM st id g) id = some (e.delGroup g)) ∧
    ((e.delGroup g).hasGroup g = false) ∧
    ((e.delGroup g).isAlive = e.isAlive) ∧
    ((e.delGroup g).comps = e.comps) ∧
    (g2 ≠ g → (e.delGroup g).hasGroup g2 = e.hasGroup g2) ∧
    ((delGroupM st id g).getEntitiesByGroup g2 = st.getEntitiesByGroup g2) ∧
    (memberIds (delGroupM st id g) = memberIds st) ∧
    (id ∉ ((delGroupM st id g).refresh).getEntitiesByGroup g) := by
  have h1 : deref (delGroupM st id g) id = some (e.delGroup g) :=
    find?_map_update id (fun x => x.delGroup g) (fun x => rfl) st.entities e hd
  have h2 : (e.delGroup g).hasGroup g = false := by
    simp [EntityState.delGroup, EntityState.setGroupBit, EntityState.hasGroup]
  refine ⟨h1, h2, rfl, rfl, ?_, rfl, ?_, ?_⟩
  · intro hne
    simp [EntityState.delGroup, EntityState.setGroupBit, EntityState.hasGroup, hne]
  · exact memberIds_updateEntity st id (fun x => x.delGroup g) (fun x => rfl)
  · intro hmem
    have hmem2 : id ∈ ((delGroupM st id g).groupedEntities g).filter (fun i =>
        match deref (delGroupM st id g) i with
        | some e => e.isAlive && e.hasGroup g
        | none => false) := hmem
    have hpred := (List.mem_filter.mp hmem2).2
    rw [h1] at hpred
    simp [h2] at hpred

/-- C10 (witness): on the concrete Manager with one entity in group 0,
`delGroup(0)` clears the bit but keeps the index entry, and the next
`refresh` removes it. -/
theorem delGroup_frame_witness :
    deref c10Manager 0 = some c10Ent ∧
    c10Ent.hasGroup 0 = true ∧
    deref (delGroupM c10Manager 0 0) 0 = some (c10Ent.delGroup 0) ∧
    (c10Ent.delGroup 0).hasGroup 0 = false ∧
    (c10Ent.delGroup 0).isAlive = c10Ent.isAlive ∧
    ((delGroupM c10Manager 0 0).getEntitiesByGroup 1 =
      c10Manager.getEntitiesByGroup 1) ∧
    (0 ∉ ((delGroupM c10Manager 0 0).refresh).getEntitiesByGroup 0) := by
  have hd : deref c10Manager 0 = some c10Ent := rfl
  have hg : c10Ent.hasGroup 0 = true := by
    simp [c10Ent, EntityState.hasGroup, EntityState.setGroupBit, emptyEnt]
  obtain ⟨h1, h2, h3, _, _, h6, h7, h8⟩ := delGroup_frame c10Manager 0 0 1 c10Ent hd hg
  exact ⟨hd, hg, h1, h2, h3, h6, h8⟩

end SimpleArkanoid
